import Mathlib

/-!
Verification of `floodgate`'s `JumpingWindow` (src/src/jumping_window.rs),
a fixed-window ("jumping window") rate limiter.

Embedding choices:
* `Instant` is modelled as a `Nat` timestamp and `Duration` as a `Nat`
  duration, both in an arbitrary common unit (e.g. nanoseconds).
  `Instant::duration_since` saturates to the zero duration when the
  argument is later than the receiver, which is exactly `Nat` truncated
  subtraction `now - last_reset`.
* Every Rust method takes `&mut self`, so each operation is embedded as a
  function returning its result value paired with the post-state
  (`reset` returns only the post-state).  Methods whose bodies perform no
  writes (`next_reset`) return the state unchanged.
* The `now: Option<Instant>` parameter defaults to the real clock when
  absent; the embedding takes the already-resolved `now : Nat`, i.e. the
  value of `now.unwrap_or_else(Instant::now)`.
-/

structure JumpingWindow where
  capacity : Nat
  period : Nat
  last_reset : Nat
  tokens : Nat
  deriving Repr, DecidableEq

namespace JumpingWindow

/-- `JumpingWindow::new(capacity, period)`: `last_reset` is set to the
construction-time now and `tokens` to `capacity`. -/
def new (capacity period now : Nat) : JumpingWindow :=
  { capacity := capacity, period := period, last_reset := now, tokens := capacity }

/-- `JumpingWindow::reset`: sets `tokens := capacity` and `last_reset := now`. -/
def reset (w : JumpingWindow) (now : Nat) : JumpingWindow :=
  { w with tokens := w.capacity, last_reset := now }

/-- `JumpingWindow::tokens` (named `tokensOp` because the field accessor
`tokens` takes the source name): if `now.duration_since(last_reset) > period`
then `self.reset(Some(now))`, then return `self.tokens`. -/
def tokensOp (w : JumpingWindow) (now : Nat) : Nat × JumpingWindow :=
  let w2 := if now - w.last_reset > w.period then w.reset now else w
  (w2.tokens, w2)

/-- `JumpingWindow::next_reset`: `since = now.duration_since(last_reset)`;
returns the zero duration if `since > period`, else `period - since`.
The body performs no writes, so the post-state is the input state. -/
def next_reset (w : JumpingWindow) (now : Nat) : Nat × JumpingWindow :=
  let since := now - w.last_reset
  (if since > w.period then 0 else w.period - since, w)

/-- `JumpingWindow::retry_after`: if `self.tokens(now) == 0` then
`Some(self.next_reset(now))` else `None`. -/
def retry_after (w : JumpingWindow) (now : Nat) : Option Nat × JumpingWindow :=
  let t := w.tokensOp now
  if t.1 = 0 then
    let r := t.2.next_reset now
    (some r.1, r.2)
  else
    (none, t.2)

/-- `JumpingWindow::can_trigger`: `self.tokens(now) != 0`. -/
def can_trigger (w : JumpingWindow) (now : Nat) : Bool × JumpingWindow :=
  let t := w.tokensOp now
  (t.1 != 0, t.2)

/-- `JumpingWindow::trigger`: computes `tokens = self.tokens(now)`; if zero,
returns `Some(self.next_reset(now))`; otherwise `self.tokens -= 1` and
returns `None`. -/
def trigger (w : JumpingWindow) (now : Nat) : Option Nat × JumpingWindow :=
  let t := w.tokensOp now
  if t.1 = 0 then
    let r := t.2.next_reset now
    (some r.1, r.2)
  else
    (none, { t.2 with tokens := t.2.tokens - 1 })

/-- Iterate `trigger` `n` times at the same instant, keeping the state. -/
def triggerN (w : JumpingWindow) (now : Nat) : Nat → JumpingWindow
  | 0 => w
  | n + 1 => ((w.triggerN now n).trigger now).2

end JumpingWindow

/-- The states reachable from a construction by any sequence of the
public operations. -/
inductive Reachable : JumpingWindow → Prop
  | new (capacity period now : Nat) : Reachable (JumpingWindow.new capacity period now)
  | tokensOp (w : JumpingWindow) (now : Nat) :
      Reachable w → Reachable (w.tokensOp now).2
  | next_reset (w : JumpingWindow) (now : Nat) :
      Reachable w → Reachable (w.next_reset now).2
  | retry_after (w : JumpingWindow) (now : Nat) :
      Reachable w → Reachable (w.retry_after now).2
  | can_trigger (w : JumpingWindow) (now : Nat) :
      Reachable w → Reachable (w.can_trigger now).2
  | trigger (w : JumpingWindow) (now : Nat) :
      Reachable w → Reachable (w.trigger now).2
  | reset (w : JumpingWindow) (now : Nat) :
      Reachable w → Reachable (w.reset now)

namespace JumpingWindow

/-- `tokensOp` written as a single conditional. -/
theorem tokensOp_eq (w : JumpingWindow) (now : Nat) :
    w.tokensOp now =
      if now - w.last_reset > w.period then
        (w.capacity, { w with tokens := w.capacity, last_reset := now })
      else (w.tokens, w) := by
  simp only [tokensOp, reset]
  split <;> rfl

theorem tokensOp_snd_tokens_le (w : JumpingWindow) (now : Nat)
    (h : w.tokens ≤ w.capacity) :
    (w.tokensOp now).2.tokens ≤ (w.tokensOp now).2.capacity := by
  rw [tokensOp_eq]
  split
  · exact Nat.le_refl _
  · exact h

theorem trigger_snd_tokens_le (w : JumpingWindow) (now : Nat)
    (h : w.tokens ≤ w.capacity) :
    (w.trigger now).2.tokens ≤ (w.trigger now).2.capacity := by
  have h2 := tokensOp_snd_tokens_le w now h
  simp only [trigger]
  split
  · simpa [next_reset]
  · simpa using le_trans (Nat.sub_le _ 1) h2

end JumpingWindow

namespace JumpingWindow

theorem next_reset_snd (w : JumpingWindow) (now : Nat) : (w.next_reset now).2 = w := rfl

theorem tokensOp_fst (w : JumpingWindow) (now : Nat) :
    (w.tokensOp now).1 = (w.tokensOp now).2.tokens := rfl

theorem tokensOp_no_reset (w : JumpingWindow) (now : Nat)
    (h : now - w.last_reset ≤ w.period) : w.tokensOp now = (w.tokens, w) := by
  rw [tokensOp_eq, if_neg (by omega)]

theorem tokensOp_snd_capacity (w : JumpingWindow) (now : Nat) :
    (w.tokensOp now).2.capacity = w.capacity := by
  rw [tokensOp_eq]; split <;> rfl

theorem tokensOp_snd_period (w : JumpingWindow) (now : Nat) :
    (w.tokensOp now).2.period = w.period := by
  rw [tokensOp_eq]; split <;> rfl

theorem retry_after_snd (w : JumpingWindow) (now : Nat) :
    (w.retry_after now).2 = (w.tokensOp now).2 := by
  simp only [retry_after, next_reset]
  split <;> rfl

theorem can_trigger_snd (w : JumpingWindow) (now : Nat) :
    (w.can_trigger now).2 = (w.tokensOp now).2 := rfl

theorem trigger_eq (w : JumpingWindow) (now : Nat) :
    w.trigger now =
      if (w.tokensOp now).1 = 0 then
        (some (((w.tokensOp now).2.next_reset now).1), (w.tokensOp now).2)
      else
        (none, { (w.tokensOp now).2 with tokens := (w.tokensOp now).2.tokens - 1 }) := by
  simp only [trigger, next_reset]

theorem trigger_no_reset_succ (w : JumpingWindow) (now : Nat)
    (h : now - w.last_reset ≤ w.period) (ht : w.tokens ≠ 0) :
    w.trigger now = (none, { w with tokens := w.tokens - 1 }) := by
  rw [trigger_eq, tokensOp_no_reset w now h, if_neg ht]

theorem trigger_exhausted_no_reset (w : JumpingWindow) (now : Nat)
    (h : now - w.last_reset ≤ w.period) (ht : w.tokens = 0) :
    w.trigger now = (some ((w.next_reset now).1), w) := by
  rw [trigger_eq, tokensOp_no_reset w now h]
  simp [ht]

theorem triggerN_no_reset (w : JumpingWindow) (now : Nat)
    (h : now - w.last_reset ≤ w.period) :
    ∀ k, k ≤ w.tokens →
      w.triggerN now k = { w with tokens := w.tokens - k } ∧
      ∀ j, j < k → ((w.triggerN now j).trigger now).1 = none := by
  intro k
  induction k with
  | zero =>
      intro _
      refine ⟨?_, by omega⟩
      cases w
      rfl
  | succ n ih =>
      intro hk
      obtain ⟨hstate, hnone⟩ := ih (by omega)
      have hlt : w.tokens - n ≠ 0 := by omega
      have hstep :
          (w.triggerN now n).trigger now =
            (none, { w with tokens := w.tokens - (n + 1) }) := by
        rw [hstate]
        rw [trigger_no_reset_succ _ now (by simpa using h) (by simpa using hlt)]
        rfl
      refine ⟨?_, ?_⟩
      · show ((w.triggerN now n).trigger now).2 = _
        rw [hstep]
      · intro j hj
        rcases Nat.lt_succ_iff_lt_or_eq.mp hj with hj2 | hj2
        · exact hnone j hj2
        · subst hj2
          rw [hstep]

end JumpingWindow

/-- The invariant `tokens ≤ capacity` holds in every reachable state. -/
theorem Reachable.tokens_le_capacity (w : JumpingWindow) (h : Reachable w) :
    w.tokens ≤ w.capacity := by
  induction h with
  | new capacity period now => exact le_refl _
  | tokensOp w now _ ih => exact JumpingWindow.tokensOp_snd_tokens_le w now ih
  | next_reset w now _ ih => simpa [JumpingWindow.next_reset] using ih
  | retry_after w now _ ih =>
      have h2 := JumpingWindow.tokensOp_snd_tokens_le w now ih
      simp only [JumpingWindow.retry_after]
      split <;> simpa [JumpingWindow.next_reset]
  | can_trigger w now _ ih =>
      have h2 := JumpingWindow.tokensOp_snd_tokens_le w now ih
      simp [JumpingWindow.can_trigger]
      exact h2
  | trigger w now _ ih => exact JumpingWindow.trigger_snd_tokens_le w now ih
  | reset w now _ ih => exact le_refl _

/-- Claim C1: Window-jump law. For every state and every explicit `now` with
`now - last_reset` strictly greater than `period`, `tokens(now)` performs a
reset: it returns `capacity` and sets `last_reset` to `now` (and `tokens` to
`capacity`), regardless of the pre-reset token count. -/
theorem c1_window_jump (w : JumpingWindow) (now : Nat)
    (h : now - w.last_reset > w.period) :
    w.tokensOp now = (w.capacity, { w with tokens := w.capacity, last_reset := now }) := by
  rw [JumpingWindow.tokensOp_eq, if_pos h]

/-- Witness for C1 at a state whose pre-reset token count (0) differs from
`capacity` (2), with elapsed `11 > period = 10`. -/
theorem c1_window_jump_witness :
    (11 : Nat) - (0 : Nat) > 10 ∧
    ({ capacity := 2, period := 10, last_reset := 0, tokens := 0 } : JumpingWindow).tokensOp 11 =
      (2, { capacity := 2, period := 10, last_reset := 11, tokens := 2 }) :=
  ⟨by decide, c1_window_jump { capacity := 2, period := 10, last_reset := 0, tokens := 0 } 11 (by decide)⟩

/-- Claim C2: in every reachable state of a `JumpingWindow` (hence
immediately before and after every operation), `0 ≤ tokens ≤ capacity`. -/
theorem c2_tokens_invariant (w : JumpingWindow) (h : Reachable w) :
    0 ≤ w.tokens ∧ w.tokens ≤ w.capacity :=
  ⟨Nat.zero_le _, Reachable.tokens_le_capacity w h⟩

/-- Witness for C2 at the state reached by `new 2 10 0` followed by a
`trigger` at time 0. -/
theorem c2_tokens_invariant_witness :
    0 ≤ ((JumpingWindow.new 2 10 0).trigger 0).2.tokens ∧
    ((JumpingWindow.new 2 10 0).trigger 0).2.tokens ≤ ((JumpingWindow.new 2 10 0).trigger 0).2.capacity :=
  c2_tokens_invariant _ (Reachable.trigger _ 0 (Reachable.new 2 10 0))

/-- Claim C3: trigger semantics. If `tokens(now)` evaluates to 0, `trigger(now)`
returns `Some(next_reset(now))` and leaves the state exactly as `tokens(now)`
left it (never decrementing below zero); otherwise it decrements the token
count by exactly 1 (leaving `last_reset` alone) and returns `None`.
Consequently, starting from a full window and staying within it (no reset
boundary crossed), exactly `capacity` triggers succeed and the next trigger
returns a present wait-duration and leaves `tokens = 0`. -/
theorem c3_trigger_semantics (w : JumpingWindow) (now : Nat) :
    ((w.tokensOp now).1 = 0 →
        w.trigger now = (some (((w.tokensOp now).2.next_reset now).1), (w.tokensOp now).2)) ∧
    ((w.tokensOp now).1 ≠ 0 →
        (w.trigger now).1 = none ∧
        (w.trigger now).2.tokens + 1 = (w.tokensOp now).2.tokens ∧
        (w.trigger now).2.last_reset = (w.tokensOp now).2.last_reset) ∧
    (now - w.last_reset ≤ w.period → w.tokens = w.capacity →
        (∀ k, k < w.capacity → ((w.triggerN now k).trigger now).1 = none) ∧
        ((w.triggerN now w.capacity).trigger now).1.isSome = true ∧
        ((w.triggerN now w.capacity).trigger now).2.tokens = 0) := by
  refine ⟨?_, ?_, ?_⟩
  · intro h0
    rw [JumpingWindow.trigger_eq, if_pos h0]
  · intro h0
    rw [JumpingWindow.trigger_eq, if_neg h0]
    rw [JumpingWindow.tokensOp_fst] at h0
    exact ⟨rfl, by simpa using Nat.succ_pred_eq_of_pos (Nat.pos_of_ne_zero h0), rfl⟩
  · intro h hfull
    obtain ⟨hstate, hnone⟩ :=
      JumpingWindow.triggerN_no_reset w now h w.capacity (Nat.le_of_eq hfull.symm)
    have hlast :
        (w.triggerN now w.capacity).trigger now =
          (some (((w.triggerN now w.capacity).next_reset now).1), w.triggerN now w.capacity) := by
      refine JumpingWindow.trigger_exhausted_no_reset _ now ?_ ?_
      · rw [hstate]; exact h
      · rw [hstate]; simp [hfull]
    refine ⟨fun k hk => hnone k hk, ?_, ?_⟩
    · rw [hlast]; rfl
    · rw [hlast, hstate]
      simp [hfull]

/-- Witness for C3: the exhausted branch at the state with 0 tokens,
the successful branch and the exhaustion law at `new 2 10 0`. -/
theorem c3_trigger_semantics_witness :
    ({ capacity := 1, period := 10, last_reset := 0, tokens := 0 } : JumpingWindow).trigger 0 =
      (some (((({ capacity := 1, period := 10, last_reset := 0, tokens := 0 } : JumpingWindow).tokensOp 0).2.next_reset 0).1),
        (({ capacity := 1, period := 10, last_reset := 0, tokens := 0 } : JumpingWindow).tokensOp 0).2) ∧
    ((JumpingWindow.new 2 10 0).trigger 0).1 = none ∧
    (((JumpingWindow.new 2 10 0).triggerN 0 0).trigger 0).1 = none ∧
    (((JumpingWindow.new 2 10 0).triggerN 0 2).trigger 0).1.isSome = true ∧
    (((JumpingWindow.new 2 10 0).triggerN 0 2).trigger 0).2.tokens = 0 := by
  refine ⟨(c3_trigger_semantics _ 0).1 (by decide),
    ((c3_trigger_semantics (JumpingWindow.new 2 10 0) 0).2.1 (by decide)).1, ?_, ?_, ?_⟩
  · exact ((c3_trigger_semantics (JumpingWindow.new 2 10 0) 0).2.2 (by decide) (by decide)).1 0 (by decide)
  · exact ((c3_trigger_semantics (JumpingWindow.new 2 10 0) 0).2.2 (by decide) (by decide)).2.1
  · exact ((c3_trigger_semantics (JumpingWindow.new 2 10 0) 0).2.2 (by decide) (by decide)).2.2

/-- Claim C4: `retry_after(now)` returns a present value if and only if
`tokens(now) = 0`, returns `none` if and only if `tokens(now) > 0`, and when
present the value is `next_reset(now)` (evaluated after the `tokens` call,
as the code does). -/
theorem c4_retry_after_consistency (w : JumpingWindow) (now : Nat) :
    (w.retry_after now).1 =
      (if (w.tokensOp now).1 = 0 then some (((w.tokensOp now).2.next_reset now).1) else none) ∧
    ((w.retry_after now).1.isSome = true ↔ (w.tokensOp now).1 = 0) ∧
    ((w.retry_after now).1 = none ↔ 0 < (w.tokensOp now).1) := by
  simp only [JumpingWindow.retry_after, JumpingWindow.next_reset]
  split
  · next h0 => simp [h0]
  · next h0 => simp [h0, Nat.pos_of_ne_zero h0]

/-- Claim C5: `next_reset(now)` returns the zero duration when
`now - last_reset > period` and `period - (now - last_reset)` otherwise,
and it never changes the state (no implicit reset, pure projection). -/
theorem c5_next_reset_pure (w : JumpingWindow) (now : Nat) :
    (w.next_reset now).1 =
      (if now - w.last_reset > w.period then 0 else w.period - (now - w.last_reset)) ∧
    (w.next_reset now).2 = w :=
  ⟨rfl, rfl⟩

/-- Claim C6: `tokens(now)` is idempotent at a fixed `now`: a second call
returns the same value and leaves the state exactly as the first call did. -/
theorem c6_tokens_idempotent (w : JumpingWindow) (now : Nat) :
    (w.tokensOp now).2.tokensOp now = w.tokensOp now := by
  rw [JumpingWindow.tokensOp_eq w]
  by_cases h : now - w.last_reset > w.period
  · rw [if_pos h, JumpingWindow.tokensOp_eq]
    simp
  · rw [if_neg h, JumpingWindow.tokensOp_eq, if_neg h]

/-- Counterexample to C7 as stated: at `elapsed = period` exactly
(state `⟨1, 10, 0, 1⟩`, `now = 10`), `next_reset` returns the zero duration
even though elapsed does not strictly exceed the period, refuting
"`next_reset(now)` returns the zero duration only when elapsed strictly
exceeds `period`". -/
theorem c7_boundary_counterexample :
    ((({ capacity := 1, period := 10, last_reset := 0, tokens := 1 } : JumpingWindow).next_reset 10).1 = 0) ∧
    ¬ ((10 : Nat) - ({ capacity := 1, period := 10, last_reset := 0, tokens := 1 } : JumpingWindow).last_reset >
        ({ capacity := 1, period := 10, last_reset := 0, tokens := 1 } : JumpingWindow).period) := by
  decide

/-- Claim C7 (amended): at exactly `elapsed = period` no reset occurs —
`tokens(now)` returns the current token count and leaves the state unchanged
(the reset comparison is strict `>`, not `≥`) — and `next_reset(now)` takes
its non-overdue branch, returning `period - elapsed` (which happens to be
the zero duration at the boundary). -/
theorem c7_boundary (w : JumpingWindow) (now : Nat)
    (h : now - w.last_reset = w.period) :
    w.tokensOp now = (w.tokens, w) ∧
    ¬ (now - w.last_reset > w.period) ∧
    (w.next_reset now).1 = w.period - (now - w.last_reset) ∧
    (w.next_reset now).2 = w := by
  have hnot : ¬ (now - w.last_reset > w.period) := by omega
  refine ⟨JumpingWindow.tokensOp_no_reset w now (Nat.le_of_eq h), hnot, ?_, rfl⟩
  simp only [JumpingWindow.next_reset]
  rw [if_neg hnot]

/-- Witness for C7 (amended) at `⟨2, 10, 0, 1⟩`, `now = 10`. -/
theorem c7_boundary_witness :
    (10 : Nat) - (0 : Nat) = 10 ∧
    ({ capacity := 2, period := 10, last_reset := 0, tokens := 1 } : JumpingWindow).tokensOp 10 =
      (1, { capacity := 2, period := 10, last_reset := 0, tokens := 1 }) ∧
    (({ capacity := 2, period := 10, last_reset := 0, tokens := 1 } : JumpingWindow).next_reset 10).1 = 0 := by
  have h := c7_boundary { capacity := 2, period := 10, last_reset := 0, tokens := 1 } 10 (by decide)
  exact ⟨by decide, h.1, h.2.2.1.trans (by decide)⟩

/-- Claim C8: out-of-order timestamps. For `now` strictly earlier than
`last_reset`, every operation is total and behaves as if no reset is due:
the saturating duration subtraction yields the zero elapsed duration, which
cannot exceed the period, so `tokens(now)` returns the current token count
without resetting, `next_reset(now)` returns the full period without state
change, and no operation touches `last_reset`. -/
theorem c8_out_of_order (w : JumpingWindow) (now : Nat) (h : now < w.last_reset) :
    now - w.last_reset = 0 ∧
    ¬ (now - w.last_reset > w.period) ∧
    w.tokensOp now = (w.tokens, w) ∧
    (w.next_reset now).1 = w.period ∧
    (w.next_reset now).2 = w ∧
    (w.can_trigger now).2 = w ∧
    (w.retry_after now).2 = w ∧
    (w.trigger now).2.last_reset = w.last_reset := by
  have hzero : now - w.last_reset = 0 := by omega
  have hle : now - w.last_reset ≤ w.period := by omega
  have htok := JumpingWindow.tokensOp_no_reset w now hle
  refine ⟨hzero, by omega, htok, ?_, rfl, ?_, ?_, ?_⟩
  · simp only [JumpingWindow.next_reset]
    rw [if_neg (by omega), hzero, Nat.sub_zero]
  · rw [JumpingWindow.can_trigger_snd, htok]
  · rw [JumpingWindow.retry_after_snd, htok]
  · rw [JumpingWindow.trigger_eq, htok]
    split
    · rfl
    · rfl

/-- Witness for C8 at `new 2 10 100` queried with `now = 5 < 100`. -/
theorem c8_out_of_order_witness :
    (5 : Nat) < (JumpingWindow.new 2 10 100).last_reset ∧
    (JumpingWindow.new 2 10 100).tokensOp 5 =
      ((JumpingWindow.new 2 10 100).tokens, JumpingWindow.new 2 10 100) ∧
    ((JumpingWindow.new 2 10 100).next_reset 5).1 = (JumpingWindow.new 2 10 100).period :=
  ⟨by decide, (c8_out_of_order (JumpingWindow.new 2 10 100) 5 (by decide)).2.2.1,
    (c8_out_of_order (JumpingWindow.new 2 10 100) 5 (by decide)).2.2.2.1⟩

/-- Claim C9: frame property. `capacity` and `period` are left unchanged by
every operation (`tokens`, `next_reset`, `retry_after`, `can_trigger`,
`trigger`, `reset`), for every state and every `now`. -/
theorem c9_frame (w : JumpingWindow) (now : Nat) :
    (w.tokensOp now).2.capacity = w.capacity ∧ (w.tokensOp now).2.period = w.period ∧
    (w.next_reset now).2.capacity = w.capacity ∧ (w.next_reset now).2.period = w.period ∧
    (w.retry_after now).2.capacity = w.capacity ∧ (w.retry_after now).2.period = w.period ∧
    (w.can_trigger now).2.capacity = w.capacity ∧ (w.can_trigger now).2.period = w.period ∧
    (w.trigger now).2.capacity = w.capacity ∧ (w.trigger now).2.period = w.period ∧
    (w.reset now).capacity = w.capacity ∧ (w.reset now).period = w.period := by
  have hc := JumpingWindow.tokensOp_snd_capacity w now
  have hp := JumpingWindow.tokensOp_snd_period w now
  refine ⟨hc, hp, rfl, rfl, ?_, ?_, ?_, ?_, ?_, ?_, rfl, rfl⟩
  · rw [JumpingWindow.retry_after_snd]; exact hc
  · rw [JumpingWindow.retry_after_snd]; exact hp
  · rw [JumpingWindow.can_trigger_snd]; exact hc
  · rw [JumpingWindow.can_trigger_snd]; exact hp
  · rw [JumpingWindow.trigger_eq]
    split
    · exact hc
    · exact hc
  · rw [JumpingWindow.trigger_eq]
    split
    · exact hp
    · exact hp

/-- Claim C10: the duration returned by `next_reset(now)` is at most
`period` — zero when the window has elapsed, `period` minus a non-negative
elapsed amount otherwise. -/
theorem c10_next_reset_le_period (w : JumpingWindow) (now : Nat) :
    (w.next_reset now).1 ≤ w.period := by
  simp only [JumpingWindow.next_reset]
  split
  · exact Nat.zero_le _
  · exact Nat.sub_le _ _
